import Mathlib

/-!
# Verification of the ReelRush subtitle subsystem

Shallow embedding of the subtitle chunking / formatting / persistence code
of `src/tools.py` (`_create_vosk_chunks`, `_format_time`,
`_generate_vosk_subtitles`, `_create_video_with_subtitles`) and the
session-scoped paths of `src/config.py`.

Modelling conventions:
* Python strings are `List Char`; file paths are Lean `String`.
* Python floats are idealised as `ℚ` (the claims under study concern
  ordering and digit formatting, not rounding).
* The external speech recognizer is out of scope: the word list it
  produces is a parameter of the embedded functions.
* The filesystem is an explicit state (`FS`) threaded through the driver.
-/

/-- A recognized word with its timestamps, as produced by the recognizer
loop in `_generate_vosk_subtitles` (`{"word": …, "start": …, "end": …}`). -/
structure TimedWord where
  word : List Char
  start : ℚ
  «end» : ℚ
deriving DecidableEq

/-- A subtitle chunk as built by `_create_vosk_chunks`
(`{"text": …, "start": …, "end": …}`). -/
structure Chunk where
  text : List Char
  start : ℚ
  «end» : ℚ
deriving DecidableEq

/-- Python `current_word.endswith(('.', '!', '?', ',', ';', ':'))`:
true iff the last character is one of the six punctuation marks
(false on the empty string). -/
def endsWithPunct (w : List Char) : Bool :=
  match w.getLast? with
  | some c => c == '.' || c == '!' || c == '?' || c == ',' || c == ';' || c == ':'
  | none => false

/-- `_create_vosk_chunks` (src/tools.py, lines 512-543): the while loop over
the cursor `i` becomes structural recursion over the word list.  A word
ending in punctuation or longer than 7 characters is emitted solo; otherwise
a pair of words of length ≤ 5 each is merged; otherwise the word is solo.
When only one word remains (`next_word is None`) every branch of the Python
code emits it solo, which the `[w]` case states directly. -/
def create_vosk_chunks : List TimedWord → List Chunk
  | [] => []
  | [w] => [⟨w.word, w.start, w.«end»⟩]
  | w :: w2 :: rest2 =>
    if endsWithPunct w.word = true ∨ 7 < w.word.length then
      ⟨w.word, w.start, w.«end»⟩ :: create_vosk_chunks (w2 :: rest2)
    else if w.word.length ≤ 5 ∧ w2.word.length ≤ 5 then
      ⟨w.word ++ ' ' :: w2.word, w.start, w2.«end»⟩ :: create_vosk_chunks rest2
    else
      ⟨w.word, w.start, w.«end»⟩ :: create_vosk_chunks (w2 :: rest2)

/-- The round-trip input of the spec: `Hello` (0.0–0.5), `world,` (0.6–1.0),
`extraordinary` (1.1–2.0). -/
def helloInput : List TimedWord :=
  [⟨"Hello".toList, 0, 0.5⟩, ⟨"world,".toList, 0.6, 1⟩, ⟨"extraordinary".toList, 1.1, 2⟩]

/-- C1 (counterexample): on the spec's round-trip input the code does NOT
return the two chunks `[("Hello world,",0.0,1.0), ("extraordinary",1.1,2.0)]`:
`"world,"` has 6 characters, which fails the `len(w2.text) <= 5` merge test,
so `"Hello"` is emitted solo. -/
theorem c1_roundtrip_counterexample :
    create_vosk_chunks helloInput ≠
      [⟨"Hello world,".toList, 0, 1⟩, ⟨"extraordinary".toList, 1.1, 2⟩] := by
  intro h
  have h2 := congrArg (List.map Chunk.text) h
  revert h2
  decide

/-- C1 (amended): on the round-trip input the Chunker returns the three
single-word chunks `[("Hello",0.0,0.5), ("world,",0.6,1.0),
("extraordinary",1.1,2.0)]`, because `"world,"` (6 characters) fails the
`≤ 5` length test that gates merging. -/
theorem c1_roundtrip_amended :
    create_vosk_chunks helloInput =
      [⟨"Hello".toList, 0, 0.5⟩, ⟨"world,".toList, 0.6, 1⟩,
       ⟨"extraordinary".toList, 1.1, 2⟩] := rfl

/-- Splitting a character list at every space character, the way the spec's
word-coverage property reads a chunk text back into its constituent words
(a two-word chunk is split at its single joining space). -/
def splitSp : List Char → List (List Char)
  | [] => [[]]
  | c :: rest =>
    if c = ' ' then [] :: splitSp rest
    else
      match splitSp rest with
      | r :: rs => (c :: r) :: rs
      | [] => [[c]]

theorem splitSp_no_space (w : List Char) (hw : ' ' ∉ w) : splitSp w = [w] := by
  induction w with
  | nil => rfl
  | cons c rest ih =>
    have hc : c ≠ ' ' := fun h => hw (h ▸ List.mem_cons_self c rest)
    have hr := ih (fun h => hw (List.mem_cons_of_mem c h))
    simp [splitSp, hc, hr]

theorem splitSp_pair (w1 w2 : List Char) (h1 : ' ' ∉ w1) (h2 : ' ' ∉ w2) :
    splitSp (w1 ++ ' ' :: w2) = [w1, w2] := by
  induction w1 with
  | nil => simp [splitSp, splitSp_no_space w2 h2]
  | cons c t ih =>
    have hc : c ≠ ' ' := fun h => h1 (h ▸ List.mem_cons_self c t)
    have ht := ih (fun h => h1 (List.mem_cons_of_mem c h))
    simp [splitSp, hc, ht]

theorem create_vosk_chunks_words (ws : List TimedWord)
    (hw : ∀ w ∈ ws, ' ' ∉ w.word) :
    (create_vosk_chunks ws).flatMap (fun c => splitSp c.text) =
      ws.map TimedWord.word := by
  induction ws using create_vosk_chunks.induct with
  | case1 => rfl
  | case2 w =>
    simp [create_vosk_chunks, splitSp_no_space w.word (hw w (by simp))]
  | case3 w w2 rest2 hcond ih =>
    have hw2 : ∀ x ∈ w2 :: rest2, ' ' ∉ x.word :=
      fun x hx => hw x (List.mem_cons_of_mem w hx)
    simp [create_vosk_chunks, hcond, splitSp_no_space w.word (hw w (by simp)), ih hw2]
  | case4 w w2 rest2 hcond hlen ih =>
    have hrest : ∀ x ∈ rest2, ' ' ∉ x.word :=
      fun x hx => hw x (List.mem_cons_of_mem w (List.mem_cons_of_mem w2 hx))
    have hsplit := splitSp_pair w.word w2.word (hw w (by simp)) (hw w2 (by simp))
    simp [create_vosk_chunks, hcond, hlen, hsplit, ih hrest]
  | case5 w w2 rest2 hcond hlen ih =>
    have hw2 : ∀ x ∈ w2 :: rest2, ' ' ∉ x.word :=
      fun x hx => hw x (List.mem_cons_of_mem w hx)
    simp [create_vosk_chunks, hcond, hlen, splitSp_no_space w.word (hw w (by simp)), ih hw2]

/-- C2: for every non-empty list of timed words whose texts contain no space
(the joining character), splitting each chunk of `_create_vosk_chunks` at its
joining spaces and concatenating recovers exactly the original word-text
sequence in order, with no word dropped or duplicated. -/
theorem c2_chunker_preserves_words (ws : List TimedWord) (hne : ws ≠ [])
    (hw : ∀ w ∈ ws, ' ' ∉ w.word) :
    (create_vosk_chunks ws).flatMap (fun c => splitSp c.text) =
      ws.map TimedWord.word :=
  create_vosk_chunks_words ws hw

/-- Witness for C2 at the concrete round-trip input. -/
theorem c2_chunker_preserves_words_witness :
    (create_vosk_chunks helloInput).flatMap (fun c => splitSp c.text) =
      helloInput.map TimedWord.word :=
  c2_chunker_preserves_words helloInput (by decide) (by decide)

/-- Input with a short word followed by a short punctuated word. -/
def punctPairInput : List TimedWord := [⟨"hi".toList, 0, 1⟩, ⟨"to,".toList, 2, 3⟩]

/-- C4 (counterexample): `"to,"` ends in `','` and its neighbour `"hi"` is
short, yet the code merges the two into the chunk `"hi to,"`: the punctuated
word does not appear as its own single-word chunk. -/
theorem c4_punct_combined_counterexample :
    endsWithPunct "to,".toList = true ∧
    (create_vosk_chunks punctPairInput).map Chunk.text = ["hi to,".toList] ∧
    "to,".toList ∉ (create_vosk_chunks punctPairInput).map Chunk.text := by
  decide

/-- C4 (amended): a word ending in `. ! ? , ; :` forms its own single-word
chunk whenever the chunker's cursor reaches it (it is never the first word of
a two-word chunk); it can however still be absorbed as the *second* word of a
pair begun by a preceding short word. -/
theorem c4_punct_solo_when_current (w : TimedWord) (rest : List TimedWord)
    (h : endsWithPunct w.word = true) :
    create_vosk_chunks (w :: rest) =
      ⟨w.word, w.start, w.«end»⟩ :: create_vosk_chunks rest := by
  cases rest with
  | nil => rfl
  | cons w2 r2 => simp [create_vosk_chunks, h]

/-- Witness for C4 (amended) at a concrete punctuated word. -/
theorem c4_punct_solo_when_current_witness :
    create_vosk_chunks [⟨"a,".toList, 0, 1⟩] =
      ⟨"a,".toList, 0, 1⟩ :: create_vosk_chunks [] :=
  c4_punct_solo_when_current ⟨"a,".toList, 0, 1⟩ [] (by decide)

/-- Three consecutive short unpunctuated words. -/
def tripleInput : List TimedWord :=
  [⟨"on".toList, 0, 1⟩, ⟨"to".toList, 2, 3⟩, ⟨"is".toList, 4, 5⟩]

/-- C5 (counterexample): `"to"` and `"is"` are consecutive, both of length
≤ 5, and `"to"` ends in no punctuation, yet no chunk `"to is"` is emitted:
`"to"` was already consumed as the second word of the pair `"on to"`. -/
theorem c5_pair_not_merged_counterexample :
    ("to".toList).length ≤ 5 ∧ ("is".toList).length ≤ 5 ∧
    endsWithPunct "to".toList = false ∧
    (create_vosk_chunks tripleInput).map Chunk.text =
      ["on to".toList, "is".toList] ∧
    "to is".toList ∉ (create_vosk_chunks tripleInput).map Chunk.text := by
  decide

/-- C5 (amended): whenever the chunker's cursor reaches a word of length ≤ 5
not ending in terminal punctuation and the following word also has length
≤ 5, the two are merged into a single 2-word chunk whose start is the first
word's start and whose end is the second word's end.  (The premise that the
cursor reaches the first word is necessary: a word already consumed as the
second element of a previous pair does not start a new chunk.) -/
theorem c5_short_pair_merged_at_cursor (w w2 : TimedWord) (rest : List TimedWord)
    (hp : endsWithPunct w.word = false) (h1 : w.word.length ≤ 5)
    (h2 : w2.word.length ≤ 5) :
    create_vosk_chunks (w :: w2 :: rest) =
      ⟨w.word ++ ' ' :: w2.word, w.start, w2.«end»⟩ :: create_vosk_chunks rest := by
  have hlen : ¬ 7 < w.word.length := by omega
  simp [create_vosk_chunks, hp, hlen, h1, h2]

/-- Witness for C5 (amended) at a concrete short pair. -/
theorem c5_short_pair_merged_at_cursor_witness :
    create_vosk_chunks [⟨"hi".toList, 0, 1⟩, ⟨"yo".toList, 2, 3⟩] =
      ⟨"hi".toList ++ ' ' :: "yo".toList, 0, 3⟩ :: create_vosk_chunks [] :=
  c5_short_pair_merged_at_cursor ⟨"hi".toList, 0, 1⟩ ⟨"yo".toList, 2, 3⟩ []
    (by decide) (by decide) (by decide)

/-- Every chunk's start time is the start time of some input word. -/
theorem create_vosk_chunks_start_mem (ws : List TimedWord) :
    ∀ c ∈ create_vosk_chunks ws, ∃ w ∈ ws, c.start = w.start := by
  induction ws using create_vosk_chunks.induct with
  | case1 => simp [create_vosk_chunks]
  | case2 w => simp [create_vosk_chunks]
  | case3 w w2 rest2 hcond ih =>
    intro c hc
    rw [create_vosk_chunks, if_pos hcond] at hc
    rcases List.mem_cons.mp hc with h | h
    · exact ⟨w, by simp, by rw [h]⟩
    · obtain ⟨w', hw', he⟩ := ih c h
      exact ⟨w', List.mem_cons_of_mem w hw', he⟩
  | case4 w w2 rest2 hcond hlen ih =>
    intro c hc
    rw [create_vosk_chunks, if_neg hcond, if_pos hlen] at hc
    rcases List.mem_cons.mp hc with h | h
    · exact ⟨w, by simp, by rw [h]⟩
    · obtain ⟨w', hw', he⟩ := ih c h
      exact ⟨w', List.mem_cons_of_mem w (List.mem_cons_of_mem w2 hw'), he⟩
  | case5 w w2 rest2 hcond hlen ih =>
    intro c hc
    rw [create_vosk_chunks, if_neg hcond, if_neg hlen] at hc
    rcases List.mem_cons.mp hc with h | h
    · exact ⟨w, by simp, by rw [h]⟩
    · obtain ⟨w', hw', he⟩ := ih c h
      exact ⟨w', List.mem_cons_of_mem w hw', he⟩

theorem create_vosk_chunks_end_ge (ws : List TimedWord)
    (h1 : ∀ w ∈ ws, w.start ≤ w.«end»)
    (h2 : ws.Pairwise (fun a b => a.start ≤ b.start)) :
    ∀ c ∈ create_vosk_chunks ws, c.start ≤ c.«end» := by
  induction ws using create_vosk_chunks.induct with
  | case1 => simp [create_vosk_chunks]
  | case2 w =>
    intro c hc
    rcases List.mem_cons.mp hc with h | h
    · rw [h]; exact h1 w (by simp)
    · simp at h
  | case3 w w2 rest2 hcond ih =>
    intro c hc
    rw [create_vosk_chunks, if_pos hcond] at hc
    rcases List.mem_cons.mp hc with h | h
    · rw [h]; exact h1 w (by simp)
    · exact ih (fun x hx => h1 x (List.mem_cons_of_mem w hx))
        ((List.pairwise_cons.mp h2).2) c h
  | case4 w w2 rest2 hcond hlen ih =>
    intro c hc
    rw [create_vosk_chunks, if_neg hcond, if_pos hlen] at hc
    rcases List.mem_cons.mp hc with h | h
    · rw [h]
      have hws : w.start ≤ w2.start :=
        (List.pairwise_cons.mp h2).1 w2 (by simp)
      exact le_trans hws (h1 w2 (by simp))
    · refine ih (fun x hx => h1 x (by simp [hx])) ?_ c h
      exact (List.pairwise_cons.mp (List.pairwise_cons.mp h2).2).2
  | case5 w w2 rest2 hcond hlen ih =>
    intro c hc
    rw [create_vosk_chunks, if_neg hcond, if_neg hlen] at hc
    rcases List.mem_cons.mp hc with h | h
    · rw [h]; exact h1 w (by simp)
    · exact ih (fun x hx => h1 x (List.mem_cons_of_mem w hx))
        ((List.pairwise_cons.mp h2).2) c h

theorem create_vosk_chunks_pairwise (ws : List TimedWord)
    (h2 : ws.Pairwise (fun a b => a.start ≤ b.start)) :
    (create_vosk_chunks ws).Pairwise (fun a b => a.start ≤ b.start) := by
  induction ws using create_vosk_chunks.induct with
  | case1 => simp [create_vosk_chunks]
  | case2 w => simp [create_vosk_chunks]
  | case3 w w2 rest2 hcond ih =>
    rw [create_vosk_chunks, if_pos hcond, List.pairwise_cons]
    obtain ⟨hfst, htail⟩ := List.pairwise_cons.mp h2
    refine ⟨?_, ih htail⟩
    intro c hc
    obtain ⟨w', hw', he⟩ := create_vosk_chunks_start_mem _ c hc
    rw [he]
    exact hfst w' hw'
  | case4 w w2 rest2 hcond hlen ih =>
    rw [create_vosk_chunks, if_neg hcond, if_pos hlen, List.pairwise_cons]
    obtain ⟨hfst, htail⟩ := List.pairwise_cons.mp h2
    obtain ⟨hfst2, htail2⟩ := List.pairwise_cons.mp htail
    refine ⟨?_, ih htail2⟩
    intro c hc
    obtain ⟨w', hw', he⟩ := create_vosk_chunks_start_mem _ c hc
    rw [he]
    exact hfst w' (List.mem_cons_of_mem w2 hw')
  | case5 w w2 rest2 hcond hlen ih =>
    rw [create_vosk_chunks, if_neg hcond, if_neg hlen, List.pairwise_cons]
    obtain ⟨hfst, htail⟩ := List.pairwise_cons.mp h2
    refine ⟨?_, ih htail⟩
    intro c hc
    obtain ⟨w', hw', he⟩ := create_vosk_chunks_start_mem _ c hc
    rw [he]
    exact hfst w' hw'

/-- C3: for every input word list in which each word satisfies
`end ≥ start` and the start times are non-decreasing, every chunk of
`_create_vosk_chunks` satisfies `end ≥ start`, and any two adjacent chunks
have non-decreasing start times. -/
theorem c3_chunk_times_monotone (ws : List TimedWord)
    (h1 : ∀ w ∈ ws, w.start ≤ w.«end»)
    (h2 : List.Chain' (fun a b => a.start ≤ b.start) ws) :
    (∀ c ∈ create_vosk_chunks ws, c.start ≤ c.«end») ∧
    List.Chain' (fun a b => a.start ≤ b.start) (create_vosk_chunks ws) := by
  haveI : IsTrans TimedWord (fun a b => a.start ≤ b.start) :=
    ⟨fun _ _ _ hab hbc => le_trans hab hbc⟩
  have hp : ws.Pairwise (fun a b => a.start ≤ b.start) :=
    List.chain'_iff_pairwise.mp h2
  exact ⟨create_vosk_chunks_end_ge ws h1 hp,
    (create_vosk_chunks_pairwise ws hp).chain'⟩

/-- Witness for C3 at a concrete monotone input. -/
theorem c3_chunk_times_monotone_witness :
    (∀ c ∈ create_vosk_chunks tripleInput, c.start ≤ c.«end») ∧
    List.Chain' (fun a b => a.start ≤ b.start) (create_vosk_chunks tripleInput) :=
  c3_chunk_times_monotone tripleInput
    (by intro w hw; fin_cases hw <;> norm_num [tripleInput])
    (by norm_num [tripleInput, List.chain'_cons])

/-- Python float floor-division `a // b`, exact on idealised rationals. -/
def pyFloorDiv (a b : ℚ) : ℚ := (⌊a / b⌋ : ℚ)

/-- Python float modulo `a % b = a - b * (a // b)` (non-negative for `b > 0`). -/
def pymod (a b : ℚ) : ℚ := a - b * ⌊a / b⌋

/-- Python `int(x)`: truncation toward zero. -/
def pytrunc (q : ℚ) : ℤ := if 0 ≤ q then ⌊q⌋ else -⌊-q⌋

/-- Decimal digit characters of a natural number, most significant first,
computed with an explicit fuel so that the definition reduces in the kernel
(`natCharsAux (n+1) n` always has enough fuel since `n / 10 < n`). -/
def natCharsAux : ℕ → ℕ → List Char
  | 0, _ => []
  | fuel + 1, n =>
    if n < 10 then [Char.ofNat (48 + n)]
    else natCharsAux fuel (n / 10) ++ [Char.ofNat (48 + n % 10)]

/-- Decimal rendering of a natural number (Python `str`/`format` of an int). -/
def natChars (n : ℕ) : List Char := natCharsAux (n + 1) n

/-- Left zero-padding to a minimum width (the `0` flag of a format spec). -/
def zpad (width : ℕ) (cs : List Char) : List Char :=
  List.replicate (width - cs.length) '0' ++ cs

/-- Python `f"{n:0Wd}"`: a nonnegative integer is zero-padded to width `W`;
a negative one keeps its sign ahead of digits padded to width `W - 1`. -/
def pyFmtZero (width : ℕ) (n : ℤ) : List Char :=
  if 0 ≤ n then zpad width (natChars n.toNat)
  else '-' :: zpad (width - 1) (natChars n.natAbs)

/-- `_format_time` (src/tools.py, lines 545-550):
`h = int(seconds // 3600)`, `m = int((seconds % 3600) // 60)`,
`s = int(seconds % 60)`, `ms = int((seconds % 1) * 1000)`, rendered as
`f"{h:02d}:{m:02d}:{s:02d},{ms:03d}"`. -/
def format_time (seconds : ℚ) : List Char :=
  let h := pytrunc (pyFloorDiv seconds 3600)
  let m := pytrunc (pyFloorDiv (pymod seconds 3600) 60)
  let s := pytrunc (pymod seconds 60)
  let ms := pytrunc (pymod seconds 1 * 1000)
  pyFmtZero 2 h ++ ':' :: (pyFmtZero 2 m ++ ':' :: (pyFmtZero 2 s ++ ',' :: pyFmtZero 3 ms))

/-- The apostrophe character used inside the font style marker. -/
def apos : Char := Char.ofNat 39

/-- Opening style marker of each payload line. -/
def fontOpen : List Char :=
  "<font color=".toList ++ apos :: ("#FFFF00".toList ++ apos :: ">".toList)

/-- Closing style marker of each payload line. -/
def fontClose : List Char := "</font>".toList

/-- One cue block of `_generate_vosk_subtitles`:
`f"{i}\n{format_time(start)} --> {format_time(end)}\n<font …>{text}</font>\n\n"`. -/
def srt_block (i : ℕ) (c : Chunk) : List Char :=
  natChars i ++ '\n' :: (format_time c.start ++ " --> ".toList ++ format_time c.«end»
    ++ '\n' :: (fontOpen ++ c.text ++ fontClose ++ ['\n', '\n']))

/-- The `for i, chunk in enumerate(word_chunks, 1)` loop of
`_generate_vosk_subtitles`: each chunk paired with its 1-based index and its
rendered block. -/
def vosk_srt_blocks_from (i : ℕ) : List Chunk → List (ℕ × List Char)
  | [] => []
  | c :: cs => (i, srt_block i c) :: vosk_srt_blocks_from (i + 1) cs

/-- The cue blocks of the document, indices starting at 1. -/
def vosk_srt_blocks (chunks : List Chunk) : List (ℕ × List Char) :=
  vosk_srt_blocks_from 1 chunks

/-- Python `str.strip()`: drop whitespace at both ends. -/
def stripChars (cs : List Char) : List Char :=
  ((cs.dropWhile Char.isWhitespace).reverse.dropWhile Char.isWhitespace).reverse

/-- The full rendered subtitle document returned by
`_generate_vosk_subtitles` (`srt.strip()`). -/
def rendered_subtitles (words : List TimedWord) : List Char :=
  stripChars ((vosk_srt_blocks (create_vosk_chunks words)).flatMap Prod.snd)

/-- Shape check for an SRT timestamp: exactly two digit characters for hours,
minutes and seconds, three for milliseconds, in `HH:MM:SS,mmm` form. -/
def isSrtTimestamp (cs : List Char) : Bool :=
  match cs with
  | [h1, h2, c1, m1, m2, c2, s1, s2, c3, d1, d2, d3] =>
    h1.isDigit && h2.isDigit && (c1 == ':') && m1.isDigit && m2.isDigit && (c2 == ':')
      && s1.isDigit && s2.isDigit && (c3 == ',') && d1.isDigit && d2.isDigit && d3.isDigit
  | _ => false

theorem natCharsAux_small (fuel m : ℕ) (hf : 0 < fuel) (hm : m < 10) :
    natCharsAux fuel m = [Char.ofNat (48 + m)] := by
  cases fuel with
  | zero => omega
  | succ f => simp [natCharsAux, hm]

theorem natChars_one_digit (n : ℕ) (h : n < 10) :
    natChars n = [Char.ofNat (48 + n)] :=
  natCharsAux_small _ _ (by omega) h

theorem natCharsAux_two (fuel m : ℕ) (hf : 2 ≤ fuel) (h1 : 10 ≤ m) (h2 : m < 100) :
    natCharsAux fuel m = [Char.ofNat (48 + m / 10), Char.ofNat (48 + m % 10)] := by
  cases fuel with
  | zero => omega
  | succ f =>
    have hm : ¬ m < 10 := by omega
    simp only [natCharsAux, hm, if_false]
    rw [natCharsAux_small f (m / 10) (by omega) (by omega)]
    rfl

theorem natChars_two_digits (n : ℕ) (h1 : 10 ≤ n) (h2 : n < 100) :
    natChars n = [Char.ofNat (48 + n / 10), Char.ofNat (48 + n % 10)] :=
  natCharsAux_two _ _ (by omega) h1 h2

theorem natChars_three_digits (n : ℕ) (h1 : 100 ≤ n) (h2 : n < 1000) :
    natChars n =
      [Char.ofNat (48 + n / 100), Char.ofNat (48 + n / 10 % 10),
       Char.ofNat (48 + n % 10)] := by
  have hn : ¬ n < 10 := by omega
  unfold natChars
  simp only [natCharsAux, hn, if_false]
  rw [natCharsAux_two n (n / 10) (by omega) (by omega) (by omega)]
  have hdd : n / 10 / 10 = n / 100 := by omega
  rw [hdd]
  rfl

theorem digit_isDigit (d : ℕ) (h : d < 10) :
    (Char.ofNat (48 + d)).isDigit = true := by
  interval_cases d <;> decide

theorem pyFmtZero_two (n : ℤ) (h0 : 0 ≤ n) (h : n < 100) :
    ∃ a b, pyFmtZero 2 n = [a, b] ∧ a.isDigit = true ∧ b.isDigit = true := by
  rcases Nat.lt_or_ge n.toNat 10 with h10 | h10
  · refine ⟨'0', Char.ofNat (48 + n.toNat), ?_, by decide, digit_isDigit _ h10⟩
    simp [pyFmtZero, h0, zpad, natChars_one_digit _ h10, List.replicate]
  · have h100 : n.toNat < 100 := by omega
    refine ⟨Char.ofNat (48 + n.toNat / 10), Char.ofNat (48 + n.toNat % 10), ?_,
      digit_isDigit _ (by omega), digit_isDigit _ (by omega)⟩
    simp [pyFmtZero, h0, zpad, natChars_two_digits _ h10 h100]

theorem pyFmtZero_three (n : ℤ) (h0 : 0 ≤ n) (h : n < 1000) :
    ∃ a b c, pyFmtZero 3 n = [a, b, c] ∧
      a.isDigit = true ∧ b.isDigit = true ∧ c.isDigit = true := by
  rcases Nat.lt_or_ge n.toNat 10 with h10 | h10
  · refine ⟨'0', '0', Char.ofNat (48 + n.toNat), ?_, by decide, by decide,
      digit_isDigit _ h10⟩
    simp [pyFmtZero, h0, zpad, natChars_one_digit _ h10, List.replicate]
  · rcases Nat.lt_or_ge n.toNat 100 with h100 | h100
    · refine ⟨'0', Char.ofNat (48 + n.toNat / 10), Char.ofNat (48 + n.toNat % 10), ?_,
        by decide, digit_isDigit _ (by omega), digit_isDigit _ (by omega)⟩
      simp [pyFmtZero, h0, zpad, natChars_two_digits _ h10 h100, List.replicate]
    · have h1000 : n.toNat < 1000 := by omega
      refine ⟨Char.ofNat (48 + n.toNat / 100), Char.ofNat (48 + n.toNat / 10 % 10),
        Char.ofNat (48 + n.toNat % 10), ?_,
        digit_isDigit _ (by omega), digit_isDigit _ (by omega), digit_isDigit _ (by omega)⟩
      simp [pyFmtZero, h0, zpad, natChars_three_digits _ h100 h1000]

theorem pymod_nonneg (a b : ℚ) (hb : 0 < b) : 0 ≤ pymod a b := by
  unfold pymod
  have h := Int.floor_le (a / b)
  have : b * (⌊a / b⌋ : ℚ) ≤ b * (a / b) := by
    exact mul_le_mul_of_nonneg_left h hb.le
  rw [mul_div_cancel₀ a (ne_of_gt hb)] at this
  linarith

theorem pymod_lt (a b : ℚ) (hb : 0 < b) : pymod a b < b := by
  unfold pymod
  have h := Int.lt_floor_add_one (a / b)
  have : b * (a / b) < b * ((⌊a / b⌋ : ℚ) + 1) :=
    mul_lt_mul_of_pos_left h hb
  rw [mul_div_cancel₀ a (ne_of_gt hb)] at this
  linarith

theorem pytrunc_nonneg_eq_floor (q : ℚ) (h : 0 ≤ q) : pytrunc q = ⌊q⌋ := if_pos h

theorem pytrunc_pyFloorDiv_bounds (a b : ℚ) (k : ℤ) (ha : 0 ≤ a) (hb : 0 < b)
    (hk : a < b * k) :
    0 ≤ pytrunc (pyFloorDiv a b) ∧ pytrunc (pyFloorDiv a b) < k := by
  have h1 : (0:ℚ) ≤ a / b := div_nonneg ha hb.le
  have h2 : (0:ℤ) ≤ ⌊a / b⌋ := Int.floor_nonneg.mpr h1
  have h3 : pytrunc (pyFloorDiv a b) = ⌊a / b⌋ := by
    rw [pyFloorDiv, pytrunc_nonneg_eq_floor _ (by exact_mod_cast h2), Int.floor_intCast]
  refine ⟨h3 ▸ h2, h3 ▸ ?_⟩
  rw [Int.floor_lt]
  rw [div_lt_iff₀ hb]
  linarith [hk]

theorem pytrunc_bounds (q : ℚ) (k : ℤ) (h0 : 0 ≤ q) (hq : q < (k : ℚ)) :
    0 ≤ pytrunc q ∧ pytrunc q < k := by
  rw [pytrunc_nonneg_eq_floor q h0]
  exact ⟨Int.floor_nonneg.mpr h0, Int.floor_lt.mpr hq⟩

theorem format_time_shape (t : ℚ) (hl : 0 ≤ t) (hu : t < 360000) :
    isSrtTimestamp (format_time t) = true := by
  have hh := pytrunc_pyFloorDiv_bounds t 3600 100 hl (by norm_num)
    (by push_cast; linarith)
  have hmod3600 : 0 ≤ pymod t 3600 := pymod_nonneg t 3600 (by norm_num)
  have hmod3600' : pymod t 3600 < 3600 := pymod_lt t 3600 (by norm_num)
  have hm := pytrunc_pyFloorDiv_bounds (pymod t 3600) 60 60 hmod3600 (by norm_num)
    (by push_cast; linarith)
  have hs := pytrunc_bounds (pymod t 60) 60 (pymod_nonneg t 60 (by norm_num))
    (by exact_mod_cast pymod_lt t 60 (by norm_num))
  have hms : 0 ≤ pymod t 1 * 1000 := by
    have := pymod_nonneg t 1 (by norm_num)
    linarith
  have hms' : pymod t 1 * 1000 < 1000 := by
    have := pymod_lt t 1 (by norm_num)
    linarith
  have hd := pytrunc_bounds (pymod t 1 * 1000) 1000 hms (by exact_mod_cast hms')
  obtain ⟨a1, a2, hA, da1, da2⟩ := pyFmtZero_two _ hh.1 hh.2
  obtain ⟨b1, b2, hB, db1, db2⟩ := pyFmtZero_two _ hm.1 (by omega)
  obtain ⟨e1, e2, hE, de1, de2⟩ := pyFmtZero_two _ hs.1 (by omega)
  obtain ⟨f1, f2, f3, hF, df1, df2, df3⟩ := pyFmtZero_three _ hd.1 hd.2
  show isSrtTimestamp
    (pyFmtZero 2 (pytrunc (pyFloorDiv t 3600)) ++ ':' ::
      (pyFmtZero 2 (pytrunc (pyFloorDiv (pymod t 3600) 60)) ++ ':' ::
        (pyFmtZero 2 (pytrunc (pymod t 60)) ++ ',' ::
          pyFmtZero 3 (pytrunc (pymod t 1 * 1000))))) = true
  rw [hA, hB, hE, hF]
  simp [isSrtTimestamp, da1, da2, db1, db2, de1, de2, df1, df2, df3]

theorem format_time_360000 : format_time 360000 = "100:00:00,000".toList := by
  have h1 : pyFloorDiv (360000:ℚ) 3600 = ((100:ℤ):ℚ) := by
    rw [pyFloorDiv]
    norm_num
  have h2 : pymod (360000:ℚ) 3600 = 0 := by
    rw [pymod]
    norm_num
  have h3 : pymod (360000:ℚ) 60 = 0 := by
    rw [pymod]
    norm_num
  have h4 : pymod (360000:ℚ) 1 = 0 := by
    rw [pymod]
    norm_num
  show pyFmtZero 2 (pytrunc (pyFloorDiv 360000 3600)) ++ ':' ::
      (pyFmtZero 2 (pytrunc (pyFloorDiv (pymod 360000 3600) 60)) ++ ':' ::
        (pyFmtZero 2 (pytrunc (pymod 360000 60)) ++ ',' ::
          pyFmtZero 3 (pytrunc (pymod 360000 1 * 1000)))) = "100:00:00,000".toList
  rw [h1, h2, h3, h4]
  have h5 : pyFloorDiv (0:ℚ) 60 = ((0:ℤ):ℚ) := by rw [pyFloorDiv]; norm_num
  rw [h5]
  have p100 : pytrunc ((100:ℤ):ℚ) = 100 := by
    rw [pytrunc, if_pos (by norm_num : (0:ℚ) ≤ ((100:ℤ):ℚ)), Int.floor_intCast]
  have p0 : pytrunc ((0:ℤ):ℚ) = 0 := by
    rw [pytrunc, if_pos (by norm_num : (0:ℚ) ≤ ((0:ℤ):ℚ)), Int.floor_intCast]
  have p0' : pytrunc (0:ℚ) = 0 := by
    rw [pytrunc, if_pos le_rfl, Int.floor_zero]
  have z : ((0:ℚ) * 1000) = 0 := by norm_num
  rw [p100, p0, p0', z, p0']
  decide

/-- C6 (counterexample): a chunk whose time reaches 100 hours (360000
seconds) renders with a 3-digit hour field (`"100:00:00,000"`), so not every
rendered timestamp has exactly 2-digit hours. -/
theorem c6_hours_overflow_counterexample :
    isSrtTimestamp (format_time 360000) = false ∧
    format_time 360000 = "100:00:00,000".toList := by
  refine ⟨?_, format_time_360000⟩
  rw [format_time_360000]
  decide

theorem vosk_srt_blocks_from_indices (i : ℕ) (cs : List Chunk) :
    (vosk_srt_blocks_from i cs).map Prod.fst = List.range' i cs.length := by
  induction cs generalizing i with
  | nil => rfl
  | cons c t ih => simp [vosk_srt_blocks_from, List.range'_succ, ih]

/-- C6 (amended): for every chunk list of length `N` whose times all lie in
`[0, 360000)` seconds (i.e. below 100 hours), the formatter emits exactly `N`
cue blocks, their indices are exactly `1..N` in order with no gaps, and every
rendered timestamp has exactly 2-digit hours, minutes and seconds and 3-digit
milliseconds in the shape `HH:MM:SS,mmm`.  (Without the time bound the claim
fails: see the 100-hour counterexample.) -/
theorem c6_formatter_blocks (chunks : List Chunk)
    (ht : ∀ c ∈ chunks, 0 ≤ c.start ∧ c.start < 360000 ∧
      0 ≤ c.«end» ∧ c.«end» < 360000) :
    (vosk_srt_blocks chunks).length = chunks.length ∧
    (vosk_srt_blocks chunks).map Prod.fst = List.range' 1 chunks.length ∧
    ∀ c ∈ chunks, isSrtTimestamp (format_time c.start) = true ∧
      isSrtTimestamp (format_time c.«end») = true := by
  refine ⟨?_, vosk_srt_blocks_from_indices 1 chunks, ?_⟩
  · have h := congrArg List.length (vosk_srt_blocks_from_indices 1 chunks)
    rw [List.length_map, List.length_range'] at h
    exact h
  · intro c hc
    obtain ⟨hs0, hs1, he0, he1⟩ := ht c hc
    exact ⟨format_time_shape c.start hs0 hs1, format_time_shape c.«end» he0 he1⟩

/-- Witness for C6 (amended) at a concrete one-chunk list. -/
theorem c6_formatter_blocks_witness :
    (vosk_srt_blocks [⟨"hi".toList, 0, 1⟩]).length = 1 ∧
    (vosk_srt_blocks [⟨"hi".toList, 0, 1⟩]).map Prod.fst = List.range' 1 1 ∧
    ∀ c ∈ [(⟨"hi".toList, 0, 1⟩ : Chunk)],
      isSrtTimestamp (format_time c.start) = true ∧
      isSrtTimestamp (format_time c.«end») = true :=
  c6_formatter_blocks [⟨"hi".toList, 0, 1⟩]
    (by intro c hc; fin_cases hc <;> norm_num)

/-- An explicit filesystem state: files as an association list from path to
contents (most recent write first), plus the set of directories. -/
structure FS where
  files : List (String × List Char)
  dirs : List String

/-- `open(p, 'w').write(c)`: (over)write the file at `p`. -/
def fsWrite (fs : FS) (p : String) (c : List Char) : FS :=
  ⟨(p, c) :: fs.files.filter (fun q => !(q.1 == p)), fs.dirs⟩

/-- Read the contents of the file at `p`, if present. -/
def fsRead (fs : FS) (p : String) : Option (List Char) :=
  (fs.files.find? (fun q => q.1 == p)).map Prod.snd

/-- `os.path.exists(p)` for files. -/
def fsExists (fs : FS) (p : String) : Bool := fs.files.any (fun q => q.1 == p)

/-- `os.remove(p)`. -/
def fsRemove (fs : FS) (p : String) : FS :=
  ⟨fs.files.filter (fun q => !(q.1 == p)), fs.dirs⟩

/-- `os.makedirs(d, exist_ok=True)`. -/
def fsMkdir (fs : FS) (d : String) : FS :=
  ⟨fs.files, if d ∈ fs.dirs then fs.dirs else d :: fs.dirs⟩

/-- `os.rmdir(d)` once it is known to succeed. -/
def fsRmdir (fs : FS) (d : String) : FS :=
  ⟨fs.files, fs.dirs.filter (fun x => !(x == d))⟩

/-- `pre` is a character-level prefix of `p` (used to model "a file lives
under this directory"). -/
def strHasPrefix (pre p : String) : Bool := pre.data.isPrefixOf p.data

/-- No file of `fs` lives under the directory whose slash-terminated prefix
is `pre` (the success condition of `os.rmdir`). -/
def dirEmpty (fs : FS) (pre : String) : Bool :=
  fs.files.all (fun q => !(strHasPrefix pre q.1))

/-- Session-scoped configuration (src/config.py): only the per-job unique
session identifier matters for the path claims. -/
structure Config where
  session_id : String

/-- `get_script_output_path` (src/config.py, lines 37-39):
`f"./scripts/{self._session_id}_script.srt"`. -/
def SCRIPT_OUTPUT_PATH (cfg : Config) : String :=
  "./scripts/" ++ cfg.session_id ++ "_script.srt"

/-- `get_final_output_path` (src/config.py):
`f"./output/{self._session_id}_tiktok.mp4"`. -/
def FINAL_OUTPUT_PATH (cfg : Config) : String :=
  "./output/" ++ cfg.session_id ++ "_tiktok.mp4"

/-- `safe_dir = "./temp_srt"` (src/tools.py, line 416). -/
def safe_dir : String := "./temp_srt"

/-- `safe_path = "./temp_srt/subs.srt"` (src/tools.py, line 417). -/
def safe_path : String := "./temp_srt/subs.srt"

/-- The subtitle path embedded in the compositor command: the source
hard-codes the literal `temp_srt/subs.srt` inside the `-vf` filter argument
of the ffmpeg command for every job (src/tools.py, line 428). -/
def compositor_subtitle_arg (_cfg : Config) : String := "temp_srt/subs.srt"

/-- `_generate_vosk_subtitles` after the recognition loop (src/tools.py,
lines 501-510).  The external recognizer is modelled by the `words`
parameter; zero recognized words raise
`Exception("Vosk detected no words with timestamps")` before any chunking,
formatting or caption write; otherwise the chunked document is rendered. -/
def generate_vosk_subtitles (words : List TimedWord) : Except String (List Char) :=
  if words.isEmpty then Except.error "Vosk detected no words with timestamps"
  else Except.ok (rendered_subtitles words)

/-- Outcome of the blocking compositor invocation
`subprocess.run(cmd, capture_output=True, timeout=180)`: either it completes
with a return code, diagnostic stderr bytes and possibly a written output
file, or it raises (e.g. `subprocess.TimeoutExpired`). -/
inductive RunOutcome where
  | completed (returncode : ℤ) (stderrBytes : List Char) (output : Option (List Char))
  | raised (msg : String)

/-- The message of the exception raised on compositor failure:
`error_msg = result.stderr.decode(...)[:200] if result.stderr else
"Unknown FFmpeg error"`. -/
def ffmpeg_error_msg (stderrBytes : List Char) : String :=
  if stderrBytes.isEmpty then "FFmpeg failed to create video: Unknown FFmpeg error"
  else "FFmpeg failed to create video: " ++ String.mk (stderrBytes.take 200)

/-- The `try: os.remove(safe_path); os.rmdir(safe_dir); except: pass` block
(src/tools.py, lines 434-438): if the file is missing `os.remove` raises and
the `os.rmdir` is never reached; if the directory is non-empty `os.rmdir`
raises; every exception is swallowed. -/
def cleanup_temp (fs : FS) : FS :=
  if fsExists fs safe_path then
    if dirEmpty (fsRemove fs safe_path) "./temp_srt/" then
      fsRmdir (fsRemove fs safe_path) safe_dir
    else fsRemove fs safe_path
  else fs

/-- `_create_video_with_subtitles` (src/tools.py, lines 407-445) with the
external collaborators as parameters (the recognizer's words, the
compositor's outcome).  Returns the final filesystem and either the output
path or the message of the raised exception.  Note the cleanup block runs
only after `subprocess.run` *returns*: when the invocation raises, the
exception propagates immediately with no cleanup. -/
def create_video_with_subtitles (cfg : Config) (fs0 : FS) (words : List TimedWord)
    (ffmpeg : RunOutcome) : FS × Except String String :=
  let fs1 := fsMkdir fs0 "./output"
  match generate_vosk_subtitles words with
  | Except.error e => (fs1, Except.error e)
  | Except.ok subs =>
    let fs2 := fsMkdir fs1 "./scripts"
    let fs3 := fsWrite fs2 (SCRIPT_OUTPUT_PATH cfg) subs
    let fs4 := fsMkdir fs3 safe_dir
    let fs5 := fsWrite fs4 safe_path subs
    match ffmpeg with
    | RunOutcome.raised msg => (fs5, Except.error msg)
    | RunOutcome.completed rc stderrBytes out =>
      let fs6 := match out with
        | some v => fsWrite fs5 (FINAL_OUTPUT_PATH cfg) v
        | none => fs5
      let fs7 := cleanup_temp fs6
      (fs7,
        if rc ≠ 0 ∨ fsExists fs7 (FINAL_OUTPUT_PATH cfg) = false then
          Except.error (ffmpeg_error_msg stderrBytes)
        else Except.ok (FINAL_OUTPUT_PATH cfg))

/-- C7: if the recognizer yields zero timed words, the pipeline stops with
the single descriptive error `"Vosk detected no words with timestamps"`
raised before any chunking or formatting, and no file whatsoever is written:
the file store is exactly the initial one, so in particular neither the
session-scoped caption file nor the working copy exists unless it already
did. -/
theorem c7_no_words_no_captions (cfg : Config) (fs : FS) (o : RunOutcome) :
    (create_video_with_subtitles cfg fs [] o).2 =
      Except.error "Vosk detected no words with timestamps" ∧
    (create_video_with_subtitles cfg fs [] o).1.files = fs.files := by
  simp [create_video_with_subtitles, generate_vosk_subtitles, fsMkdir]

theorem find_skip_ne (l : List (String × List Char)) (p q : String) (h : p ≠ q) :
    List.find? (fun x => x.1 == p) (l.filter (fun x => !(x.1 == q))) =
      List.find? (fun x => x.1 == p) l := by
  have hqp : (q == p) = false := beq_false_of_ne (Ne.symm h)
  induction l with
  | nil => rfl
  | cons a t ih =>
    by_cases haq : a.1 = q
    · have hap : (a.1 == p) = false := by
        rw [haq]
        exact hqp
      simp [List.filter_cons, haq, List.find?_cons, hap, hqp, ih]
    · have haq' : (a.1 == q) = false := beq_false_of_ne haq
      by_cases hax : a.1 = p
      · simp [List.filter_cons, haq', List.find?_cons, hax, h]
      · have hap : (a.1 == p) = false := beq_false_of_ne hax
        simp [List.filter_cons, haq', List.find?_cons, hap, ih]

theorem any_skip_ne (l : List (String × List Char)) (p q : String) (h : p ≠ q) :
    (l.filter (fun x => !(x.1 == q))).any (fun x => x.1 == p) =
      l.any (fun x => x.1 == p) := by
  have hqp : (q == p) = false := beq_false_of_ne (Ne.symm h)
  induction l with
  | nil => rfl
  | cons a t ih =>
    by_cases haq : a.1 = q
    · have hap : (a.1 == p) = false := by
        rw [haq]
        exact hqp
      simp [List.filter_cons, haq, List.any_cons, hap, hqp, ih]
    · have haq' : (a.1 == q) = false := beq_false_of_ne haq
      simp [List.filter_cons, haq', List.any_cons, ih]

theorem fsRead_write_self (fs : FS) (p : String) (c : List Char) :
    fsRead (fsWrite fs p c) p = some c := by
  simp [fsRead, fsWrite, List.find?_cons]

theorem fsRead_write_ne (fs : FS) (p q : String) (c : List Char) (h : p ≠ q) :
    fsRead (fsWrite fs q c) p = fsRead fs p := by
  simp only [fsRead, fsWrite]
  rw [List.find?_cons_of_neg _ (by simp [Ne.symm h]), find_skip_ne fs.files p q h]

theorem fsRead_remove_ne (fs : FS) (p q : String) (h : p ≠ q) :
    fsRead (fsRemove fs q) p = fsRead fs p := by
  simp only [fsRead, fsRemove]
  rw [find_skip_ne fs.files p q h]

theorem fsRead_cleanup_ne (fs : FS) (p : String) (h : p ≠ safe_path) :
    fsRead (cleanup_temp fs) p = fsRead fs p := by
  unfold cleanup_temp
  split
  · split
    · exact fsRead_remove_ne fs p safe_path h
    · exact fsRead_remove_ne fs p safe_path h
  · rfl

theorem fsExists_write_self (fs : FS) (p : String) (c : List Char) :
    fsExists (fsWrite fs p c) p = true := by
  simp [fsExists, fsWrite]

theorem fsExists_write_other (fs : FS) (p q : String) (c : List Char) (h : p ≠ q) :
    fsExists (fsWrite fs q c) p = fsExists fs p := by
  simp only [fsExists, fsWrite, List.any_cons]
  rw [any_skip_ne fs.files p q h]
  simp [beq_false_of_ne (Ne.symm h)]

theorem fsExists_remove_self (fs : FS) (p : String) :
    fsExists (fsRemove fs p) p = false := by
  simp only [fsExists, fsRemove, Bool.eq_false_iff, ne_eq, List.any_eq_true]
  rintro ⟨x, hx, hx1⟩
  have := (List.mem_filter.mp hx).2
  rw [hx1] at this
  simp at this

theorem fsExists_remove_ne (fs : FS) (p q : String) (h : p ≠ q) :
    fsExists (fsRemove fs q) p = fsExists fs p := by
  simp only [fsExists, fsRemove]
  exact any_skip_ne fs.files p q h

theorem cleanup_removes_safe (fs : FS) :
    fsExists (cleanup_temp fs) safe_path = false := by
  unfold cleanup_temp
  split
  · split
    · exact fsExists_remove_self fs safe_path
    · exact fsExists_remove_self fs safe_path
  · rename_i hnot
    simp only [Bool.not_eq_true] at hnot
    exact hnot

theorem fsExists_cleanup_ne (fs : FS) (p : String) (h : p ≠ safe_path) :
    fsExists (cleanup_temp fs) p = fsExists fs p := by
  unfold cleanup_temp
  split
  · split
    · exact fsExists_remove_ne fs p safe_path h
    · exact fsExists_remove_ne fs p safe_path h
  · rfl

theorem strHasPrefix_temp_scripts (s : String) :
    strHasPrefix "./temp_srt/" ("./scripts/" ++ s) = false := by
  unfold strHasPrefix
  rw [String.data_append]
  show List.isPrefixOf ("./temp_srt/".data) ("./scripts/".data ++ s.data) = false
  simp [List.isPrefixOf]

theorem strHasPrefix_temp_output (s : String) :
    strHasPrefix "./temp_srt/" ("./output/" ++ s) = false := by
  unfold strHasPrefix
  rw [String.data_append]
  show List.isPrefixOf ("./temp_srt/".data) ("./output/".data ++ s.data) = false
  simp [List.isPrefixOf]

theorem temp_not_prefix_SCRIPT (cfg : Config) :
    strHasPrefix "./temp_srt/" (SCRIPT_OUTPUT_PATH cfg) = false := by
  unfold SCRIPT_OUTPUT_PATH
  rw [String.append_assoc]
  exact strHasPrefix_temp_scripts _

theorem temp_not_prefix_FINAL (cfg : Config) :
    strHasPrefix "./temp_srt/" (FINAL_OUTPUT_PATH cfg) = false := by
  unfold FINAL_OUTPUT_PATH
  rw [String.append_assoc]
  exact strHasPrefix_temp_output _

theorem SCRIPT_ne_safe (cfg : Config) : SCRIPT_OUTPUT_PATH cfg ≠ safe_path := by
  intro h
  have hp := temp_not_prefix_SCRIPT cfg
  rw [h] at hp
  revert hp
  decide

theorem FINAL_ne_safe (cfg : Config) : FINAL_OUTPUT_PATH cfg ≠ safe_path := by
  intro h
  have hp := temp_not_prefix_FINAL cfg
  rw [h] at hp
  revert hp
  decide

theorem FINAL_ne_SCRIPT (c1 c2 : Config) :
    FINAL_OUTPUT_PATH c1 ≠ SCRIPT_OUTPUT_PATH c2 := by
  intro he
  have hd := congrArg (fun x => x.data.take 3) he
  simp only [FINAL_OUTPUT_PATH, SCRIPT_OUTPUT_PATH, String.data_append] at hd
  revert hd
  show ((("./output/".data ++ c1.session_id.data) ++ "_tiktok.mp4".data).take 3 =
    (("./scripts/".data ++ c2.session_id.data) ++ "_script.srt".data).take 3) → False
  intro hd
  simp [List.take_append] at hd

/-- The filesystem after the two caption writes of the driver (session
caption, then working copy), before the compositor runs. -/
def fs5_of (cfg : Config) (fs : FS) (subs : List Char) : FS :=
  fsWrite (fsMkdir (fsWrite (fsMkdir (fsMkdir fs "./output") "./scripts")
    (SCRIPT_OUTPUT_PATH cfg) subs) safe_dir) safe_path subs

/-- The filesystem after the compositor completes (it may have written the
output file). -/
def fs6_of (cfg : Config) (fs : FS) (subs : List Char)
    (out : Option (List Char)) : FS :=
  match out with
  | some v => fsWrite (fs5_of cfg fs subs) (FINAL_OUTPUT_PATH cfg) v
  | none => fs5_of cfg fs subs

theorem driver_completed_eq (cfg : Config) (fs : FS) (a : TimedWord)
    (tl : List TimedWord) (rc : ℤ) (st : List Char) (out : Option (List Char)) :
    create_video_with_subtitles cfg fs (a :: tl) (RunOutcome.completed rc st out) =
      (cleanup_temp (fs6_of cfg fs (rendered_subtitles (a :: tl)) out),
       if rc ≠ 0 ∨ fsExists (cleanup_temp (fs6_of cfg fs (rendered_subtitles (a :: tl)) out))
           (FINAL_OUTPUT_PATH cfg) = false
       then Except.error (ffmpeg_error_msg st)
       else Except.ok (FINAL_OUTPUT_PATH cfg)) := rfl

theorem driver_raised_eq (cfg : Config) (fs : FS) (a : TimedWord)
    (tl : List TimedWord) (msg : String) :
    create_video_with_subtitles cfg fs (a :: tl) (RunOutcome.raised msg) =
      (fs5_of cfg fs (rendered_subtitles (a :: tl)), Except.error msg) := rfl

theorem mem_fsWrite (fs : FS) (p : String) (c : List Char) (x : String × List Char)
    (hx : x ∈ (fsWrite fs p c).files) : x = (p, c) ∨ x ∈ fs.files := by
  rcases List.mem_cons.mp hx with h | h
  · exact Or.inl h
  · exact Or.inr (List.mem_filter.mp h).1

theorem not_mem_rmdir (fs : FS) (d : String) : d ∉ (fsRmdir fs d).dirs := by
  simp [fsRmdir, List.mem_filter]

theorem fsExists_fs6_safe (cfg : Config) (fs : FS) (subs : List Char)
    (out : Option (List Char)) :
    fsExists (fs6_of cfg fs subs out) safe_path = true := by
  cases out with
  | none => exact fsExists_write_self _ _ _
  | some v =>
    show fsExists (fsWrite (fs5_of cfg fs subs) (FINAL_OUTPUT_PATH cfg) v) safe_path = true
    rw [fsExists_write_other _ _ _ _ (Ne.symm (FINAL_ne_safe cfg))]
    exact fsExists_write_self _ _ _

theorem dirEmpty_fs6 (cfg : Config) (fs : FS) (subs : List Char)
    (out : Option (List Char))
    (hfs : ∀ p ∈ fs.files, strHasPrefix "./temp_srt/" p.1 = false) :
    dirEmpty (fsRemove (fs6_of cfg fs subs out) safe_path) "./temp_srt/" = true := by
  unfold dirEmpty
  rw [List.all_eq_true]
  intro x hx
  obtain ⟨hx6, hxne⟩ := List.mem_filter.mp hx
  have hnp : strHasPrefix "./temp_srt/" x.1 = false := by
    have hx5 : x = (safe_path, subs) ∨ x = (SCRIPT_OUTPUT_PATH cfg, subs) ∨
        x ∈ fs.files ∨ (∃ v, out = some v ∧ x = (FINAL_OUTPUT_PATH cfg, v)) := by
      cases out with
      | none =>
        rcases mem_fsWrite _ _ _ _ hx6 with h | h
        · exact Or.inl h
        · rcases mem_fsWrite _ _ _ _ h with h2 | h2
          · exact Or.inr (Or.inl h2)
          · exact Or.inr (Or.inr (Or.inl h2))
      | some v =>
        rcases mem_fsWrite _ _ _ _ hx6 with h | h
        · exact Or.inr (Or.inr (Or.inr ⟨v, rfl, h⟩))
        · rcases mem_fsWrite _ _ _ _ h with h2 | h2
          · exact Or.inl h2
          · rcases mem_fsWrite _ _ _ _ h2 with h3 | h3
            · exact Or.inr (Or.inl h3)
            · exact Or.inr (Or.inr (Or.inl h3))
    rcases hx5 with h | h | h | ⟨v, _, h⟩
    · rw [h] at hxne
      simp at hxne
    · rw [h]
      exact temp_not_prefix_SCRIPT cfg
    · exact hfs x h
    · rw [h]
      exact temp_not_prefix_FINAL cfg
  simp [hnp]

/-- C8 (counterexample): when the compositor subprocess raises — e.g.
`subprocess.TimeoutExpired` on the 180 s timeout — the cleanup statements,
which are not in a `finally` block, never execute: the working subtitle file
and its directory both survive while the exception propagates. -/
theorem c8_no_cleanup_on_raise_counterexample :
    fsExists (create_video_with_subtitles ⟨"job"⟩ ⟨[], []⟩ [⟨"hi".toList, 0, 1⟩]
      (RunOutcome.raised "TimeoutExpired")).1 safe_path = true ∧
    safe_dir ∈ (create_video_with_subtitles ⟨"job"⟩ ⟨[], []⟩ [⟨"hi".toList, 0, 1⟩]
      (RunOutcome.raised "TimeoutExpired")).1.dirs ∧
    (create_video_with_subtitles ⟨"job"⟩ ⟨[], []⟩ [⟨"hi".toList, 0, 1⟩]
      (RunOutcome.raised "TimeoutExpired")).2 = Except.error "TimeoutExpired" := by
  refine ⟨rfl, ?_, rfl⟩
  rw [driver_raised_eq]
  decide

/-- C8 (amended): the working subtitle file and (when nothing else lives
under the temporary directory) its containing directory are removed whenever
the compositor subprocess *returns* — success, non-zero exit, output present
or missing — because the cleanup block runs before the exit-code check; but
when the invocation itself raises (e.g. timeout) the cleanup is skipped, so
removal is not guaranteed on every execution path. -/
theorem c8_cleanup_on_completed (cfg : Config) (fs : FS) (ws : List TimedWord)
    (rc : ℤ) (st : List Char) (out : Option (List Char)) (hws : ws ≠ [])
    (hfs : ∀ p ∈ fs.files, strHasPrefix "./temp_srt/" p.1 = false) :
    fsExists (create_video_with_subtitles cfg fs ws
      (RunOutcome.completed rc st out)).1 safe_path = false ∧
    safe_dir ∉ (create_video_with_subtitles cfg fs ws
      (RunOutcome.completed rc st out)).1.dirs := by
  obtain ⟨a, tl, rfl⟩ := List.exists_cons_of_ne_nil hws
  rw [driver_completed_eq]
  constructor
  · exact cleanup_removes_safe _
  · show safe_dir ∉ (cleanup_temp (fs6_of cfg fs (rendered_subtitles (a :: tl)) out)).dirs
    rw [cleanup_temp, if_pos (fsExists_fs6_safe cfg fs _ out),
      if_pos (dirEmpty_fs6 cfg fs _ out hfs)]
    exact not_mem_rmdir _ _

/-- Witness for C8 (amended) at a concrete failing compositor run. -/
theorem c8_cleanup_on_completed_witness :
    fsExists (create_video_with_subtitles ⟨"job"⟩ ⟨[], []⟩ [⟨"hi".toList, 0, 1⟩]
      (RunOutcome.completed 1 [] none)).1 safe_path = false ∧
    safe_dir ∉ (create_video_with_subtitles ⟨"job"⟩ ⟨[], []⟩ [⟨"hi".toList, 0, 1⟩]
      (RunOutcome.completed 1 [] none)).1.dirs :=
  c8_cleanup_on_completed ⟨"job"⟩ ⟨[], []⟩ [⟨"hi".toList, 0, 1⟩] 1 [] none
    (by decide) (by decide)

/-- C9 (counterexample): two invocations with distinct session identifiers
hand the compositor the very same working subtitle path: the source
hard-codes `temp_srt/subs.srt` (and writes `./temp_srt/subs.srt`), so the
working path is a fixed filename, not derived from the session identifier. -/
theorem c9_fixed_working_path_counterexample :
    (Config.mk "jobA").session_id ≠ (Config.mk "jobB").session_id ∧
    compositor_subtitle_arg (Config.mk "jobA") =
      compositor_subtitle_arg (Config.mk "jobB") ∧
    safe_path = "./temp_srt/subs.srt" :=
  ⟨by decide, rfl, rfl⟩

/-- C9 (amended): the *primary* caption path is derived from the per-job
session identifier — distinct identifiers yield distinct primary caption
paths — but the temporary working caption path handed to the compositor is
the single fixed path `temp_srt/subs.srt`, identical across jobs. -/
theorem c9_paths_scoping (c1 c2 : Config) (h : c1.session_id ≠ c2.session_id) :
    SCRIPT_OUTPUT_PATH c1 ≠ SCRIPT_OUTPUT_PATH c2 ∧
    compositor_subtitle_arg c1 = compositor_subtitle_arg c2 := by
  refine ⟨?_, rfl⟩
  intro he
  apply h
  have hd := congrArg String.data he
  simp only [SCRIPT_OUTPUT_PATH, String.data_append, List.append_assoc] at hd
  exact String.ext (List.append_cancel_right (List.append_cancel_left hd))

/-- Witness for C9 (amended) at two concrete sessions. -/
theorem c9_paths_scoping_witness :
    SCRIPT_OUTPUT_PATH ⟨"jobA"⟩ ≠ SCRIPT_OUTPUT_PATH ⟨"jobB"⟩ ∧
    compositor_subtitle_arg ⟨"jobA"⟩ = compositor_subtitle_arg ⟨"jobB"⟩ :=
  c9_paths_scoping ⟨"jobA"⟩ ⟨"jobB"⟩ (by decide)

/-- C10: when the compositor subprocess returns a non-zero exit code — or
writes no output file while none pre-exists — the driver raises the
descriptive FFmpeg error, and the session-scoped primary caption file
written before the invocation still exists and still holds the full
rendered subtitle document. -/
theorem c10_primary_caption_preserved (cfg : Config) (fs : FS)
    (ws : List TimedWord) (rc : ℤ) (st : List Char) (out : Option (List Char))
    (hws : ws ≠ [])
    (hfail : rc ≠ 0 ∨ (out = none ∧ fsExists fs (FINAL_OUTPUT_PATH cfg) = false)) :
    (create_video_with_subtitles cfg fs ws (RunOutcome.completed rc st out)).2 =
      Except.error (ffmpeg_error_msg st) ∧
    fsRead (create_video_with_subtitles cfg fs ws (RunOutcome.completed rc st out)).1
      (SCRIPT_OUTPUT_PATH cfg) = some (rendered_subtitles ws) := by
  obtain ⟨a, tl, rfl⟩ := List.exists_cons_of_ne_nil hws
  rw [driver_completed_eq]
  constructor
  · have hcond : rc ≠ 0 ∨
        fsExists (cleanup_temp (fs6_of cfg fs (rendered_subtitles (a :: tl)) out))
          (FINAL_OUTPUT_PATH cfg) = false := by
      rcases hfail with h | ⟨hout, hpre⟩
      · exact Or.inl h
      · right
        subst hout
        rw [fsExists_cleanup_ne _ _ (FINAL_ne_safe cfg)]
        show fsExists (fs5_of cfg fs (rendered_subtitles (a :: tl)))
          (FINAL_OUTPUT_PATH cfg) = false
        unfold fs5_of
        rw [fsExists_write_other _ _ _ _ (FINAL_ne_safe cfg)]
        show fsExists (fsWrite (fsMkdir (fsMkdir fs "./output") "./scripts")
          (SCRIPT_OUTPUT_PATH cfg) (rendered_subtitles (a :: tl)))
          (FINAL_OUTPUT_PATH cfg) = false
        rw [fsExists_write_other _ _ _ _ (FINAL_ne_SCRIPT cfg cfg)]
        exact hpre
    show (if rc ≠ 0 ∨ fsExists (cleanup_temp (fs6_of cfg fs
        (rendered_subtitles (a :: tl)) out)) (FINAL_OUTPUT_PATH cfg) = false
      then Except.error (ffmpeg_error_msg st)
      else Except.ok (FINAL_OUTPUT_PATH cfg)) = Except.error (ffmpeg_error_msg st)
    rw [if_pos hcond]
  · show fsRead (cleanup_temp (fs6_of cfg fs (rendered_subtitles (a :: tl)) out))
      (SCRIPT_OUTPUT_PATH cfg) = some (rendered_subtitles (a :: tl))
    rw [fsRead_cleanup_ne _ _ (SCRIPT_ne_safe cfg)]
    cases out with
    | some v =>
      show fsRead (fsWrite (fs5_of cfg fs (rendered_subtitles (a :: tl)))
        (FINAL_OUTPUT_PATH cfg) v) (SCRIPT_OUTPUT_PATH cfg) =
        some (rendered_subtitles (a :: tl))
      rw [fsRead_write_ne _ _ _ _ (Ne.symm (FINAL_ne_SCRIPT cfg cfg))]
      unfold fs5_of
      rw [fsRead_write_ne _ _ _ _ (SCRIPT_ne_safe cfg)]
      exact fsRead_write_self _ _ _
    | none =>
      show fsRead (fs5_of cfg fs (rendered_subtitles (a :: tl)))
        (SCRIPT_OUTPUT_PATH cfg) = some (rendered_subtitles (a :: tl))
      unfold fs5_of
      rw [fsRead_write_ne _ _ _ _ (SCRIPT_ne_safe cfg)]
      exact fsRead_write_self _ _ _

/-- Witness for C10 at a concrete non-zero compositor exit. -/
theorem c10_primary_caption_preserved_witness :
    (create_video_with_subtitles ⟨"job"⟩ ⟨[], []⟩ [⟨"hi".toList, 0, 1⟩]
      (RunOutcome.completed 1 "boom".toList none)).2 =
      Except.error (ffmpeg_error_msg "boom".toList) ∧
    fsRead (create_video_with_subtitles ⟨"job"⟩ ⟨[], []⟩ [⟨"hi".toList, 0, 1⟩]
      (RunOutcome.completed 1 "boom".toList none)).1
      (SCRIPT_OUTPUT_PATH ⟨"job"⟩) = some (rendered_subtitles [⟨"hi".toList, 0, 1⟩]) :=
  c10_primary_caption_preserved ⟨"job"⟩ ⟨[], []⟩ [⟨"hi".toList, 0, 1⟩] 1
    "boom".toList none (by decide) (Or.inl (by decide))
